import Mathlib

/-!
Shallow embedding of the Nova runtime core
(packages/runtime-node/runner.js, full version in src/unnamed/part_002,
together with the Runtime store of src/unnamed/part_001 and the AST shape
produced by packages/compiler/index.js).

Conventions of the embedding:
* JavaScript strings are Lean `String`s; where the source uses regular
  expressions the exact backtracking behaviour of the concrete pattern is
  reimplemented as a total function over `List Char` (leftmost match,
  greedy quantifiers modelled by first/last occurrence search as dictated
  by each concrete pattern).
* JavaScript numbers that the runner produces are integers (parseInt,
  Number over digit strings, Date.now differences), so they are modelled
  as `Nat`/`Int`.  The one non-integer computation,
  `Math.ceil((percentile/100) * sorted.length)`, is evaluated in IEEE-754
  binary64: the embedding reproduces its two roundings exactly
  (`roundPosRat`, round to nearest, ties to even), valid throughout the
  normal finite double range, which covers every value the runner can
  produce (percentile and history length are exact doubles far below
  2^53).
* The key/value store (a JS `Map` in insertion order) is an association
  list; items are association lists from field names to values.
* Thrown exceptions are `Except.error`; branches of the source that read a
  property of a failed regex match (`m[1]` when `m` is `null`) raise a
  TypeError at request scope and are modelled as `Except.error "TypeError"`.
-/

deriving instance DecidableEq for Except

/-- One JS value stored in an item field: the seeded store only holds
numbers and strings.  `Number(v)` over such a value is modelled by
`toNum` below. -/
inductive Val where
  | num : Int → Val
  | str : String → Val
deriving DecidableEq, Repr

/-- An item of the store: field name to value, as produced by the seeding
loop of `run`. -/
abbrev Item := List (String × Val)

/-- The key/value store of `Runtime` (a JS Map in insertion order). -/
abbrev Store := List (String × Item)

/-- Query parameters: `URLSearchParams` as a list of (name, value) pairs in
order. -/
abbrev Query := List (String × String)

/-- `Runtime.kvGet`: first entry with the given key (Map keys are unique). -/
def kvGet (store : Store) (k : String) : Option Item :=
  (List.find? (fun kv => kv.1 == k) store).map (fun kv => kv.2)

/-- `ctx.searchParams.getAll(name)`. -/
def getAll (q : Query) (name : String) : List String :=
  (List.filter (fun kv => kv.1 == name) q).map (fun kv => kv.2)

/-- `ctx.searchParams.get(name)`: first value, or none. -/
def getFirst (q : Query) (name : String) : Option String :=
  (List.find? (fun kv => kv.1 == name) q).map (fun kv => kv.2)

/-- `item[field]` on an item. -/
def itemGet (it : Item) (fd : String) : Option Val :=
  (List.find? (fun kv => kv.1 == fd) it).map (fun kv => kv.2)

/-- `String(v)` for a stored value. -/
def jsValString (v : Val) : String :=
  match v with
  | .num n => toString n
  | .str s => s

/-- `String(x)` where `x` may be `undefined`. -/
def jsValStringOpt (v : Option Val) : String :=
  match v with
  | some w => jsValString w
  | none => "undefined"

/-- `'lit' + x` where `x` may be `undefined` (string coercion). -/
def jsStrOpt (v : Option String) : String :=
  match v with
  | some s => s
  | none => "undefined"

/-! ### Character-list helpers modelling the JS string operations -/

/-- Boolean list-prefix test (the backbone of `String.prototype.startsWith`
and of leftmost regex search). -/
def listPre : List Char → List Char → Bool
  | [], _ => true
  | _ :: _, [] => false
  | a :: as, b :: bs => a == b && listPre as bs

/-- `s.startsWith(pre)`. -/
def jsStartsWith (s pre : String) : Bool :=
  listPre pre.data s.data

/-- Index of the first occurrence of `pat` in a character list
(leftmost regex match position). -/
def findSub (pat : List Char) : List Char → Option Nat
  | [] => if listPre pat [] then some 0 else none
  | c :: rest =>
    if listPre pat (c :: rest) then some 0
    else (findSub pat rest).map (fun i => i + 1)

/-- `s.includes(sub)`. -/
def jsIncludes (s sub : String) : Bool :=
  (findSub sub.data s.data).isSome

/-- Index of the last occurrence of a character (how a trailing greedy
`(.*)` or `(.+)` followed by a literal character resolves). -/
def lastIdxChar (c : Char) : List Char → Option Nat
  | [] => none
  | x :: rest =>
    match lastIdxChar c rest with
    | some j => some (j + 1)
    | none => if x == c then some 0 else none

/-- Index of the last occurrence of the two-character pattern `a b`
(resolution of greedy `(.*)` before a two-character literal). -/
def lastSub2 (a b : Char) : List Char → Option Nat
  | [] => none
  | x :: rest =>
    match lastSub2 a b rest with
    | some j => some (j + 1)
    | none =>
      match rest with
      | y :: _ => if x == a && y == b then some 0 else none
      | [] => none

/-- `s.trim()` on a character list (JS whitespace modelled by
`Char.isWhitespace`). -/
def trimChars (cs : List Char) : List Char :=
  ((cs.dropWhile (fun c => c.isWhitespace)).reverse.dropWhile
      (fun c => c.isWhitespace)).reverse

/-- `s.trim()`. -/
def jsTrim (s : String) : String := String.mk (trimChars s.data)

/-- `s.split(sep)` with a nonempty string separator: split at every
non-overlapping occurrence, scanning left to right (over `List Char`).
Structural recursion over a fuel that bounds the list length, so that the
kernel can evaluate it. -/
def splitOnFuel (sep : List Char) : Nat → List Char → List Char → List (List Char)
  | 0, cur, _ => [cur]
  | fuel + 1, cur, cs =>
    match cs with
    | [] => [cur]
    | c :: rest =>
      if sep ≠ [] ∧ listPre sep (c :: rest) = true then
        cur :: splitOnFuel sep fuel [] ((c :: rest).drop sep.length)
      else splitOnFuel sep fuel (cur ++ [c]) rest

/-- `s.split(sep)` for the separators used by the runner (all nonempty). -/
def jsSplitOn (s sep : String) : List String :=
  (splitOnFuel sep.data s.data.length [] s.data).map String.mk

/-- `s.replace(pat, '')` with a string pattern: JS removes only the first
occurrence (Lean's own `String.replace` would remove all of them). -/
def jsRemoveFirst (s pat : String) : String :=
  match findSub pat.data s.data with
  | none => s
  | some i => String.mk (s.data.take i ++ s.data.drop (i + pat.data.length))

/-- `s.toLowerCase()` (ASCII, which covers the data of this runner). -/
def lowerStr (s : String) : String := String.mk (s.data.map Char.toLower)

/-- `String(a).toLowerCase().includes(b.toLowerCase())`. -/
def strIncludesCI (a b : String) : Bool :=
  (findSub (lowerStr b).data (lowerStr a).data).isSome

/-- Maximal run of decimal digits at the head (a greedy `(\d+)`). -/
def takeDigits : List Char → List Char × List Char
  | [] => ([], [])
  | c :: rest =>
    if c.isDigit then
      let (d, r) := takeDigits rest
      (c :: d, r)
    else ([], c :: rest)

/-- `\s*`: drop leading whitespace. -/
def skipWs (cs : List Char) : List Char := cs.dropWhile (fun c => c.isWhitespace)

/-- Numeric value of a digit run (`parseInt`/`Number` over digits). -/
def digitsToNat (ds : List Char) : Nat :=
  ds.foldl (fun a c => a * 10 + (c.toNat - 48)) 0

/-- A signed decimal integer (the numeric strings `Number` accepts in this
data set; exponent/hex forms do not occur in the runner's data). -/
def parseIntChars (cs : List Char) : Option Int :=
  match cs with
  | '-' :: rest =>
    if !rest.isEmpty && rest.all (fun c => c.isDigit) then
      some (-(digitsToNat rest : Int))
    else none
  | _ =>
    if !cs.isEmpty && cs.all (fun c => c.isDigit) then
      some (digitsToNat cs : Int)
    else none

/-- `Number(v)` restricted to the value forms of this store: a number is
itself; a string is trimmed and read as a decimal integer (the empty
string is 0, anything else non-numeric is NaN = `none`). -/
def toNum (v : Val) : Option Int :=
  match v with
  | .num n => some n
  | .str s =>
    let t := trimChars s.data
    if t.isEmpty then some 0 else parseIntChars t

/-- `Runtime.kvScan`: values of the entries whose key starts with the
given text, in insertion order. -/
def kvScan (store : Store) (pfx : String) : List Item :=
  (List.filter (fun kv => jsStartsWith kv.1 pfx) store).map (fun kv => kv.2)

example : listPre "ab".data "abc".data = true := by decide
example : findSub "in".data "x in y".data = some 2 := by decide
example : lastIdxChar ')' "a)b)".data = some 3 := by decide
example : lastSub2 '"' ')' "kv(\"a\") x\")".data = some 9 := by decide
example : jsRemoveFirst "?q.s?q.t" "?q." = "s?q.t" := by decide
example : takeDigits "12ab".data = ("12".data, "ab".data) := by decide
example : digitsToNat "450".data = 450 := by decide

/-! ### The concrete regular expressions of runner.js -/

/-- `/X\((.+)\)/` applied to `s` for a literal callee `X` (used for
`kv.get`, `filter`, `req`, `http.post`): the capture runs from the first
occurrence of `X(` to the last `)` after it, and must be nonempty. -/
def matchCallArg (fname s : String) : Option String :=
  let pat := (fname ++ "(").data
  match findSub pat s.data with
  | none => none
  | some i =>
    let rest := s.data.drop (i + pat.length)
    match lastIdxChar ')' rest with
    | some j => if 1 ≤ j then some (String.mk (rest.take j)) else none
    | none => none

/-- `/kv\.scan\("(.*)"\)/`: capture (possibly empty) from the first
`kv.scan("` to the last `")`. -/
def jsMatchKvScan (s : String) : Option String :=
  match findSub "kv.scan(\"".data s.data with
  | none => none
  | some i =>
    let rest := s.data.drop (i + 9)
    match lastSub2 '"' ')' rest with
    | some j => some (String.mk (rest.take j))
    | none => none

/-- One attempt of `/page\((\d+)\)/` at the head of a character list. -/
def tryPageAt : List Char → Option Nat
  | 'p' :: 'a' :: 'g' :: 'e' :: '(' :: r =>
    let (ds, r1) := takeDigits r
    if ds.isEmpty then none
    else match r1 with
      | ')' :: _ => some (digitsToNat ds)
      | _ => none
  | _ => none

/-- `/page\((\d+)\)/`: leftmost match, returns the page size. -/
def findPageNum (s : String) : Option Nat :=
  go s.data
where
  go : List Char → Option Nat
    | [] => none
    | c :: rest =>
      match tryPageAt (c :: rest) with
      | some n => some n
      | none => go rest

/-- Does the text start (after optional whitespace) with a digit?  This is
the continuation test `\s*(\d+)` used when resolving the optional `=` of
`([<>]=?)`. -/
def wsDigit (cs : List Char) : Bool :=
  match skipWs cs with
  | c :: _ => c.isDigit
  | [] => false

/-- The comparator alternative `([<>]=?|≥|≤)` followed by `\s*(\d+)`,
including the backtracking of the optional `=`, already normalised the way
`checkProperties` normalises `≥`/`≤`.  Returns the (normalised) operator
and the text after it. -/
def readCmpOp : List Char → Option (String × List Char)
  | '>' :: '=' :: rest =>
    if wsDigit rest then some (">=", rest)
    else if wsDigit ('=' :: rest) then some (">", '=' :: rest)
    else none
  | '>' :: rest => if wsDigit rest then some (">", rest) else none
  | '<' :: '=' :: rest =>
    if wsDigit rest then some ("<=", rest)
    else if wsDigit ('=' :: rest) then some ("<", '=' :: rest)
    else none
  | '<' :: rest => if wsDigit rest then some ("<", rest) else none
  | '≥' :: rest => if wsDigit rest then some (">=", rest) else none
  | '≤' :: rest => if wsDigit rest then some ("<=", rest) else none
  | _ => none

/-- One attempt of `/U(\d+)\(x\)\s*([<>]=?|≥|≤)\s*(\d+)/` at the head:
returns (field, normalised operator, threshold). -/
def tryCmpAt : List Char → Option (String × String × Nat)
  | 'U' :: rest =>
    let (ds, r1) := takeDigits rest
    if ds.isEmpty then none
    else match r1 with
      | '(' :: 'x' :: ')' :: r2 =>
        match readCmpOp (skipWs r2) with
        | some (op, r3) =>
          let (ts, _) := takeDigits (skipWs r3)
          some ("U" ++ String.mk ds, op, digitsToNat ts)
        | none => none
      | _ => none
  | _ => none

/-- Leftmost match of the numeric-comparison property pattern of
`checkProperties`. -/
def searchCmp (s : String) : Option (String × String × Nat) :=
  go s.data
where
  go : List Char → Option (String × String × Nat)
    | [] => none
    | c :: rest =>
      match tryCmpAt (c :: rest) with
      | some x => some x
      | none => go rest

/-- Case-insensitive character comparison (the `/i` flag). -/
def chCI (a b : Char) : Bool := a.toLower == b.toLower

/-- One attempt of `/mono\(\s*(U\d+)\s*,\s*E(\d+)\s*\)/i` at the head:
returns the raw captured field text and the digits of the enum id. -/
def tryMonoAt : List Char → Option (String × String)
  | c1 :: c2 :: c3 :: c4 :: '(' :: r0 =>
    if chCI c1 'm' && chCI c2 'o' && chCI c3 'n' && chCI c4 'o' then
      match skipWs r0 with
      | u :: r2 =>
        if chCI u 'U' then
          let (ds, r3) := takeDigits r2
          if ds.isEmpty then none
          else match skipWs r3 with
            | ',' :: r4 =>
              match skipWs r4 with
              | e :: r5 =>
                if chCI e 'E' then
                  let (es, r6) := takeDigits r5
                  if es.isEmpty then none
                  else match skipWs r6 with
                    | ')' :: _ => some (String.mk (u :: ds), String.mk es)
                    | _ => none
                else none
              | [] => none
            | _ => none
        else none
      | [] => none
    else none
  | _ => none

/-- Leftmost match of the `mono(U#, E#)` property pattern of
`checkProperties`. -/
def searchMono (s : String) : Option (String × String) :=
  go s.data
where
  go : List Char → Option (String × String)
    | [] => none
    | c :: rest =>
      match tryMonoAt (c :: rest) with
      | some x => some x
      | none => go rest

example : searchCmp "U3(x) >= 0" = some ("U3", ">=", 0) := by decide
example : searchCmp "∀x∈M1. U3(x) ≥ 0" = some ("U3", ">=", 0) := by decide
example : searchCmp "U12(x)<=100" = some ("U12", "<=", 100) := by decide
example : searchCmp "U3(x) >== 5" = none := by decide
example : searchMono "mono(U4, E1)" = some ("U4", "1") := by decide
example : searchMono "MONO( u4 ,e2 )" = some ("u4", "2") := by decide

/-- One attempt of the budget pattern `/p(\d+)<(\d+)(ms|s)/` at the head:
returns (percentile, threshold in the written unit, unit-is-seconds). -/
def tryBudgetAt : List Char → Option (Nat × Nat × Bool)
  | 'p' :: r =>
    let (ds, r1) := takeDigits r
    if ds.isEmpty then none
    else match r1 with
      | '<' :: r2 =>
        let (ts, r3) := takeDigits r2
        if ts.isEmpty then none
        else match r3 with
          | 'm' :: 's' :: _ => some (digitsToNat ds, digitsToNat ts, false)
          | 's' :: _ => some (digitsToNat ds, digitsToNat ts, true)
          | _ => none
      | _ => none
  | _ => none

/-- A latency budget constraint: percentile and threshold in
milliseconds. -/
structure Budget where
  percentile : Nat
  threshold : Nat
deriving DecidableEq, Repr

/-- Leftmost match of the budget pattern inside a `!` segment, with the
`s` unit normalised to milliseconds (×1000), as in `run`. -/
def findBudget (s : String) : Option Budget :=
  go s.data
where
  go : List Char → Option Budget
    | [] => none
    | c :: rest =>
      match tryBudgetAt (c :: rest) with
      | some (p, t, secs) => some ⟨p, if secs then t * 1000 else t⟩
      | none => go rest

example : findBudget "!p99<500ms" = some ⟨99, 500⟩ := by decide
example : findBudget "!p95<2s" = some ⟨95, 2000⟩ := by decide
example : findBudget "!oops" = none := by decide

/-- One attempt of the precondition pattern `/(U\d+)\s*[^[]*\[(.+)\]/` at
the head: the field, then everything up to the first `[`, then a greedy
nonempty capture ending at the last `]`; the capture is comma-split and
trimmed as in `evaluatePrecondition`. -/
def tryPrecondAt : List Char → Option (String × List String)
  | 'U' :: rest =>
    let (ds, r1) := takeDigits rest
    if ds.isEmpty then none
    else match List.findIdx? (fun c => c == '[') r1 with
      | none => none
      | some jb =>
        let after := r1.drop (jb + 1)
        match lastIdxChar ']' after with
        | some k =>
          if 1 ≤ k then
            some ("U" ++ String.mk ds,
                  (jsSplitOn (String.mk (after.take k)) ",").map jsTrim)
          else none
        | none => none
  | _ => none

/-- Leftmost match of the precondition pattern of
`evaluatePrecondition`. -/
def precondParse (cond : String) : Option (String × List String) :=
  go cond.data
where
  go : List Char → Option (String × List String)
    | [] => none
    | c :: rest =>
      match tryPrecondAt (c :: rest) with
      | some x => some x
      | none => go rest

example : precondParse "U4 in [2,3]" = some ("U4", ["2", "3"]) := by decide
example : precondParse "U4 ∈ [2, 3]" = some ("U4", ["2", "3"]) := by decide
example : precondParse "U4 in []" = none := by decide
example : precondParse "no field" = none := by decide

example : jsSplitOn "a in b in c" " in " = ["a", "b", "c"] := by decide
example : jsSplitOn "a,,b" "," = ["a", "", "b"] := by decide
example : jsSplitOn "" "," = [""] := by decide
example : jsSplitOn "A :: B" "::" = ["A ", " B"] := by decide

/-! ### Request context and expression evaluation -/

/-- The per-request context: path variables captured by the route matcher
(in template order, unique names) and the query parameters.  The runtime
reference of the JS context is passed separately as the `Store`. -/
structure Ctx where
  pathVars : List (String × String)
  query : Query
deriving DecidableEq, Repr

/-- `ctx.pathVars[name]`. -/
def lookupVar (vars : List (String × String)) (name : String) : Option String :=
  (List.find? (fun kv => kv.1 == name) vars).map (fun kv => kv.2)

/-- The apostrophe character (written by code so that quoting stays
unambiguous). -/
def squote : Char := Char.ofNat 39

/-- Is a `+`-token of `evaluateExpression` a quoted string literal?
JS tests `startsWith` and `endsWith` for the same quote character. -/
def isQuotedTok (cs : List Char) : Bool :=
  match cs with
  | [] => false
  | c :: rest =>
    let l := (c :: rest).getLast (by simp)
    (c == '"' && l == '"') || (c == squote && l == squote)

/-- `evaluateExpression`: split on `+`, trim each token; a quoted token is
stripped of its outer quotes, a path-variable name is substituted, and any
other token stands for itself; the pieces are concatenated. -/
def evaluateExpression (expr : String) (vars : List (String × String)) : String :=
  ((jsSplitOn expr "+").map jsTrim).foldl
    (fun acc tok =>
      acc ++
        (if isQuotedTok tok.data then String.mk (tok.data.drop 1).dropLast
         else match lookupVar vars tok with
           | some v => v
           | none => tok))
    ""

example : evaluateExpression "\"j:\"+U1" [("U1", "job7")] = "j:job7" := by decide
example : evaluateExpression "\"j:\"+U1" [] = "j:U1" := by decide

/-- `splitArgs`: comma-split respecting single/double quotes (the JS loop,
verbatim: the in-quote flag, the quote character and the current chunk). -/
def splitArgsGo (inQ : Bool) (qc : Char) (cur : List Char)
    (acc : List (List Char)) : List Char → List (List Char)
  | [] => if cur.isEmpty then acc else acc ++ [cur]
  | ch :: rest =>
    if inQ then
      if ch == qc then splitArgsGo false qc (cur ++ [ch]) acc rest
      else splitArgsGo true qc (cur ++ [ch]) acc rest
    else if ch == '"' || ch == squote then
      splitArgsGo true ch (cur ++ [ch]) acc rest
    else if ch == ',' then splitArgsGo false qc [] (acc ++ [cur]) rest
    else splitArgsGo false qc (cur ++ [ch]) acc rest

/-- `splitArgs(str)`. -/
def splitArgs (s : String) : List String :=
  (splitArgsGo false ' ' [] [] s.data).map String.mk

example : splitArgs "\"m\",\"/u/\"+U1" = ["\"m\"", "\"/u/\"+U1"] := by decide
example : splitArgs "\"a,b\",c" = ["\"a,b\"", "c"] := by decide

/-- `parseArgs(argsStr, ctx)`. -/
def parseArgs (argsStr : String) (vars : List (String × String)) : List String :=
  (splitArgs argsStr).map (fun part => evaluateExpression (jsTrim part) vars)

/-! ### Filter and precondition evaluation -/

/-- `evaluateFilter(cond, item, ctx)`: the `in` form keeps the item when
the query-parameter set is empty or contains the stringified field value;
the `~` form is a case-insensitive containment test; anything else throws.
A one-element split (impossible when the separator occurs in the
condition) would be a JS TypeError. -/
def evaluateFilter (cond : String) (it : Item) (q : Query) : Except String Bool :=
  if jsIncludes cond " in " then
    match jsSplitOn cond " in " with
    | fd :: rest :: _ =>
      let v := itemGet it (jsTrim fd)
      let pname := jsRemoveFirst (jsTrim rest) "?q."
      let vals := getAll q pname
      .ok (vals.isEmpty || vals.contains (jsValStringOpt v))
    | _ => .error "TypeError"
  else if jsIncludes cond "~" then
    match jsSplitOn cond "~" with
    | fd :: rest :: _ =>
      let v := itemGet it (jsTrim fd)
      let pname := jsRemoveFirst (jsTrim rest) "?q."
      let qv := (getFirst q pname).getD ""
      .ok (strIncludesCI (jsValStringOpt v) qv)
    | _ => .error "TypeError"
  else .error ("Unsupported filter condition: " ++ cond)

/-- `data.filter(item => evaluateFilter(cond, item, ctx))`: a throw from
the callback aborts the whole filter. -/
def filterE (cond : String) (q : Query) : List Item → Except String (List Item)
  | [] => .ok []
  | it :: rest =>
    match evaluateFilter cond it q with
    | .error e => .error e
    | .ok true => (filterE cond q rest).map (fun l => it :: l)
    | .ok false => filterE cond q rest

/-- `evaluatePrecondition(cond, ctx)`: parse the condition, fetch the item
at `'j:' + ctx.pathVars['U1']` (the literal text `undefined` when that
variable is absent), fail when the item is missing, otherwise test whether
the stringified field value is among the declared values. -/
def evaluatePrecondition (cond : String) (ctx : Ctx) (store : Store) :
    Except String Bool :=
  match precondParse cond with
  | none => .error ("Unsupported precondition: " ++ cond)
  | some (fd, vals) =>
    let key := "j:" ++ jsStrOpt (lookupVar ctx.pathVars "U1")
    match kvGet store key with
    | none => .ok false
    | some it => .ok (vals.contains (jsValStringOpt (itemGet it fd)))

/-- Modelled from the spec: `Precondition(cond)` fetches the authoritative
item "using a key derived from the route's first path variable (prefixed
by a fixed literal)" — i.e. the first captured path variable of the
matched route, not the variable that happens to be named `U1`.  Used to
compare the claim's reading against `evaluatePrecondition`. -/
def evaluatePreconditionSpec (cond : String) (ctx : Ctx) (store : Store) :
    Except String Bool :=
  match precondParse cond with
  | none => .error ("Unsupported precondition: " ++ cond)
  | some (fd, vals) =>
    let key := "j:" ++ jsStrOpt ((ctx.pathVars.head?).map (fun kv => kv.2))
    match kvGet store key with
    | none => .ok false
    | some it => .ok (vals.contains (jsValStringOpt (itemGet it fd)))

/-! ### The pipeline interpreter -/

/-- The `data` value threaded through `executePipeline`: initially
`undefined`; `kv.get` yields one item or `undefined`, `kv.scan` yields an
array of items. -/
inductive Data where
  | jsUndefined : Data
  | one : Item → Data
  | many : List Item → Data
deriving DecidableEq, Repr

/-- The runtime state a pipeline can observe or extend: the key/value
store, plus the trace of outbound `http.post` calls that were issued
(`Runtime.httpPost` itself answers `{ok: true}` and changes nothing, so
observable effects are exactly this trace). -/
structure RtState where
  store : Store
  posts : List (List String)
deriving DecidableEq, Repr

/-- One stage of `executePipeline`: dispatch on the leading text of the
segment exactly as the if/else-if chain of the source does. -/
def execSeg (seg : String) (ctx : Ctx) (st : RtState) (d : Data) :
    Except String (Data × RtState) :=
  if jsStartsWith seg "kv.scan" then
    match jsMatchKvScan seg with
    | none => .error ("Invalid kv.scan segment: " ++ seg)
    | some pfx => .ok (.many (kvScan st.store pfx), st)
  else if jsStartsWith seg "kv.get" then
    match matchCallArg "kv.get" seg with
    | none => .error "TypeError"
    | some expr =>
      let key := evaluateExpression expr ctx.pathVars
      .ok (match kvGet st.store key with
           | some it => .one it
           | none => .jsUndefined, st)
  else if jsStartsWith seg "filter" then
    match matchCallArg "filter" seg with
    | none => .error "TypeError"
    | some cond =>
      match d with
      | .many items => (filterE cond ctx.query items).map (fun l => (.many l, st))
      | _ => .error "filter can only be applied to arrays"
  else if jsStartsWith seg "page" then
    match findPageNum seg with
    | none => .error "TypeError"
    | some n =>
      .ok (match d with
           | .many items => .many (items.take n)
           | _ => d, st)
  else if jsStartsWith seg "req" then
    match matchCallArg "req" seg with
    | none => .error "TypeError"
    | some cond =>
      match evaluatePrecondition cond ctx st.store with
      | .error e => .error e
      | .ok true => .ok (d, st)
      | .ok false => .error ("Precondition failed: " ++ cond)
  else if jsStartsWith seg "http.post" then
    match matchCallArg "http.post" seg with
    | none => .error "TypeError"
    | some argsStr =>
      .ok (d, { st with posts := st.posts ++ [parseArgs argsStr ctx.pathVars] })
  else if jsStartsWith seg "!" then .ok (d, st)
  else .error ("Unsupported segment: " ++ seg)

/-- `executePipeline`, generalised over the incoming `data` value: run the
segments in order; an error aborts the remaining stages, keeping the state
reached so far. -/
def execSegs (segs : List String) (ctx : Ctx) (st : RtState) (d : Data) :
    Except String Data × RtState :=
  match segs with
  | [] => (.ok d, st)
  | seg :: rest =>
    match execSeg seg ctx st d with
    | .ok (d', st') => execSegs rest ctx st' d'
    | .error e => (.error e, st)

/-- `executePipeline(segments, ctx)`: the `data` value starts out
`undefined`. -/
def executePipeline (segs : List String) (ctx : Ctx) (st : RtState) :
    Except String Data × RtState :=
  execSegs segs ctx st .jsUndefined

/-! ### Route path templates and matching -/

/-- A token of a compiled path template: literal text, or one `{Name}`
variable (compiled by `buildPathRegex` into a named group `[^/]+`). -/
inductive PathToken where
  | lit : List Char → PathToken
  | pvar : String → PathToken
deriving DecidableEq, Repr

/-- `buildPathRegex` seen as a tokenizer: every `{inner}` with nonempty
inner text becomes a variable token, everything else stays literal (a `{`
with no matching `}` or with empty inner text stays a literal character).
Fuel-based structural recursion over the character count. -/
def tokenizeFuel : Nat → List Char → List Char → List PathToken
  | 0, acc, _ => if acc.isEmpty then [] else [.lit acc]
  | fuel + 1, acc, cs =>
    match cs with
    | [] => if acc.isEmpty then [] else [.lit acc]
    | '{' :: rest =>
      let inner := rest.takeWhile (fun c => c ≠ '}')
      let r2 := rest.dropWhile (fun c => c ≠ '}')
      match r2 with
      | '}' :: r3 =>
        if inner.isEmpty then tokenizeFuel fuel (acc ++ ['{']) rest
        else
          (if acc.isEmpty then [] else [PathToken.lit acc]) ++
            (PathToken.pvar (String.mk inner) :: tokenizeFuel fuel [] r3)
      | _ => tokenizeFuel fuel (acc ++ ['{']) rest
    | c :: rest => tokenizeFuel fuel (acc ++ [c]) rest

/-- The token list of a path template. -/
def tokenizePath (path : String) : List PathToken :=
  tokenizeFuel path.data.length [] path.data

example :
    tokenizePath "/j/\x7bU1\x7d" = [.lit "/j/".data, .pvar "U1"] := by decide
example :
    tokenizePath "/j/\x7bU1\x7d/x" =
      [.lit "/j/".data, .pvar "U1", .lit "/x".data] := by decide
example : tokenizePath "/plain" = [.lit "/plain".data] := by decide

/-- Matching of the anchored compiled route regex against a path: literal
tokens must match verbatim; a variable (`[^/]+` in `buildPathRegex`)
consumes a nonempty run of non-`/` characters, greedily with backtracking
(longest candidate first).  Captured variables are returned in template
order, as in `match.groups`.  (Paths of the programs considered contain no
regex metacharacters, so literal text matches verbatim.)  Structural
recursion over a fuel that bounds the token count. -/
def matchToksF : Nat → List PathToken → List Char →
    Option (List (String × String))
  | 0, _, _ => none
  | fuel + 1, toks, cs =>
    match toks with
    | [] => if cs.isEmpty then some [] else none
    | .lit l :: rest =>
      if listPre l cs then matchToksF fuel rest (cs.drop l.length) else none
    | .pvar n :: rest =>
      let maxK := (cs.takeWhile (fun c => c ≠ '/')).length
      ((List.range maxK).map (fun i => maxK - i)).findSome? (fun k =>
        (matchToksF fuel rest (cs.drop k)).map
          (fun vars => (n, String.mk (cs.take k)) :: vars))

/-- Matching of a tokenized path template against a request path. -/
def matchToks (toks : List PathToken) (cs : List Char) :
    Option (List (String × String)) :=
  matchToksF (toks.length + 1) toks cs

example :
    matchToks (tokenizePath "/j/\x7bU1\x7d") "/j/job7".data =
      some [("U1", "job7")] := by decide
example : matchToks (tokenizePath "/j/\x7bU1\x7d") "/j/".data = none := by decide
example : matchToks (tokenizePath "/j/\x7bU1\x7d") "/j/a/b".data = none := by decide
example : matchToks (tokenizePath "/j") "/j".data = some [] := by decide

/-! ### The route compiler (the compile phase of `run`) -/

/-- ASCII `[A-Z]`. -/
def isUpperAZ (c : Char) : Bool := 'A' ≤ c && c ≤ 'Z'

/-- The split point chosen by `/^([A-Z]+)\s+(.+)\s+->\s*(.+)$/` for a
method of length `m`: the greedy `(.+)` makes the match use the LAST
position `k` carrying `->` that is preceded by a whitespace character,
leaves at least one path character after the method's whitespace
(`k ≥ m + 3`), and leaves at least one character after the arrow. -/
def arrowPos (cs : List Char) (m : Nat) : Option Nat :=
  ((List.range cs.length).filter (fun k =>
      decide (m + 3 ≤ k) && (cs[k]? == some '-') && (cs[k + 1]? == some '>') &&
        (match cs[k - 1]? with
         | some c => c.isWhitespace
         | none => false) &&
        decide (k + 3 ≤ cs.length))).getLast?

/-- `parsePathPart`: `(method, path, returnType)` when the path-part regex
matches, `none` (a thrown `Invalid path part` error) otherwise.  The
captures around the whitespace runs are trimmed by the source, so the
trimmed window between the method and the arrow is exactly the trimmed
second capture, and the trimmed text after the arrow the third. -/
def parsePathPart (s : String) : Option (String × String × String) :=
  let cs := s.data
  let meth := cs.takeWhile isUpperAZ
  if meth.isEmpty then none
  else
    match cs.drop meth.length with
    | [] => none
    | c :: _ =>
      if c.isWhitespace then
        match arrowPos cs meth.length with
        | none => none
        | some k =>
          some (String.mk meth,
                String.mk (trimChars ((cs.drop meth.length).take (k - 1 - meth.length))),
                String.mk (trimChars (cs.drop (k + 2))))
      else none

example :
    parsePathPart "GET /j -> [M1]" = some ("GET", "/j", "[M1]") := by decide
example :
    parsePathPart "GET /j/\x7bU1\x7d -> M1" =
      some ("GET", "/j/\x7bU1\x7d", "M1") := by decide
example : parsePathPart "get /j -> M1" = none := by decide
example : parsePathPart "GET /j" = none := by decide
example : parsePathPart "GETX" = none := by decide
example : parsePathPart "" = none := by decide
example :
    parsePathPart "POST /a -> b -> c" = some ("POST", "/a -> b", "c") := by decide

/-- `parsePipeline`: split the text after `::` on `|` and trim each
stage. -/
def parsePipeline (pipelineStr : String) : List String :=
  (jsSplitOn pipelineStr "|").map jsTrim

/-- The operation-name test `/^([a-zA-Z0-9_.]+)\(/` used for capability
validation: the maximal leading run of name characters, which must be
nonempty and be followed immediately by `(`. -/
def capMatchOf (seg : String) : Option String :=
  let run := seg.data.takeWhile (fun c => c.isAlphanum || c == '_' || c == '.')
  if run.isEmpty then none
  else if seg.data[run.length]? == some '(' then some (String.mk run)
  else none

example : capMatchOf "kv.scan(\"j:\")" = some "kv.scan" := by decide
example : capMatchOf "page(10)" = some "page" := by decide
example : capMatchOf "plain" = none := by decide

/-- A compiled route, as pushed by `run`'s compile loop (the latency
history starts empty and is tracked by the budget functions below). -/
structure CompiledRoute where
  method : String
  path : String
  tokens : List PathToken
  segments : List String
  budgets : List Budget
deriving DecidableEq, Repr

/-- The compile loop over the raw pipeline stages: budgets (segments
starting `!`) are collected separately when they parse and dropped
otherwise; every other stage must pass capability validation against the
dictionary unless its operation is one of the builtins
`filter`/`page`/`req`; an unknown capability is a fatal compile error. -/
def compileSegsGo (dict : String → Bool) :
    List String → Except String (List String × List Budget)
  | [] => .ok ([], [])
  | seg :: rest =>
    if jsStartsWith seg "!" then
      match findBudget seg with
      | some b =>
        match compileSegsGo dict rest with
        | .error e => .error e
        | .ok (ss, bs) => .ok (ss, b :: bs)
      | none => compileSegsGo dict rest
    else
      match capMatchOf seg with
      | some cap =>
        if cap ∈ ["filter", "page", "req"] then
          match compileSegsGo dict rest with
          | .error e => .error e
          | .ok (ss, bs) => .ok (seg :: ss, bs)
        else if dict cap then
          match compileSegsGo dict rest with
          | .error e => .error e
          | .ok (ss, bs) => .ok (seg :: ss, bs)
        else .error ("Unknown capability: " ++ cap)
      | none =>
        match compileSegsGo dict rest with
        | .error e => .error e
        | .ok (ss, bs) => .ok (seg :: ss, bs)

/-- The path part of a route spec: first `::`-chunk, trimmed. -/
def pathPartOf (spec : String) : String :=
  ((jsSplitOn spec "::").map jsTrim).headD ""

/-- The pipeline part of a route spec: second `::`-chunk, trimmed, or `''`
when absent (`parts[1] || ''`). -/
def pipelineOf (spec : String) : String :=
  (((jsSplitOn spec "::").map jsTrim)[1]?).getD ""

/-- Compiling one route spec, exactly as the loop body in `run`: parse the
path part (fatal on mismatch), split the pipeline, extract budgets,
validate capabilities. -/
def compileRoute (dict : String → Bool) (spec : String) :
    Except String CompiledRoute :=
  match parsePathPart (pathPartOf spec) with
  | none => .error ("Invalid path part: " ++ pathPartOf spec)
  | some (meth, pth, _) =>
    match compileSegsGo dict (parsePipeline (pipelineOf spec)) with
    | .error e => .error e
    | .ok (segs, buds) => .ok ⟨meth, pth, tokenizePath pth, segs, buds⟩

/-- Compiling a whole program's route specs (in declaration order); the
first failure aborts compilation of the program. -/
def compileRoutes (dict : String → Bool) :
    List String → Except String (List CompiledRoute)
  | [] => .ok []
  | spec :: rest =>
    match compileRoute dict spec with
    | .error e => .error e
    | .ok r =>
      match compileRoutes dict rest with
      | .error e => .error e
      | .ok rs => .ok (r :: rs)

example :
    (compileRoutes (fun c => c == "kv.scan")
        ["GET /j -> [M1] :: kv.scan(\"j:\") | !p99<500ms | page(10)"]).isOk =
      true := by decide
example :
    compileRoutes (fun c => c == "kv.scan")
        ["GET /j -> [M1] :: zap(1)"] =
      .error "Unknown capability: zap" := by decide
example :
    compileRoutes (fun _ => true) ["oops"] =
      .error "Invalid path part: oops" := by decide

/-! ### The dispatcher (request loop of `run`) -/

/-- The outcome of one dispatched request: the pipeline's value serialized
as the 200 payload, a caught error as the 400 payload, or the 404
fallthrough. -/
inductive Outcome where
  | success : Data → Outcome
  | errorResp : String → Outcome
  | notFound : Outcome
deriving DecidableEq, Repr

/-- Wrap a pipeline result the way the request handler does: `200` with
the serialized result on success, `400` with the error message on a
caught exception. -/
def respond (r : Except String Data × RtState) : Outcome × RtState :=
  match r with
  | (.ok d, st) => (.success d, st)
  | (.error e, st) => (.errorResp e, st)

/-- The dispatcher: walk the compiled routes in declaration order, skip
routes of a different method, run the pipeline of the first route whose
path regex matches (its named groups become the path variables), and fall
through to 404 when nothing matches.  (The latency/budget bookkeeping and
the observability passes that follow a successful match never change the
response; latencies are modelled by `recordAndCheck` below.) -/
def dispatchS (routes : List CompiledRoute) (method pth : String) (q : Query)
    (st : RtState) : Outcome × RtState :=
  match routes with
  | [] => (.notFound, st)
  | r :: rest =>
    if r.method == method then
      match matchToks r.tokens pth.data with
      | some vars => respond (execSegs r.segments ⟨vars, q⟩ st .jsUndefined)
      | none => dispatchS rest method pth q st
    else dispatchS rest method pth q st

/-- The route the loop settles on: first route with the right method whose
regex matches. -/
def findRoute (routes : List CompiledRoute) (method pth : String) :
    Option CompiledRoute :=
  routes.find? (fun r => r.method == method && (matchToks r.tokens pth.data).isSome)

/-- A route is read-only when its pipeline never invokes the outbound
`http.post` capability (no pipeline stage of this runner writes to the
store at all). -/
def readOnlyRoute (r : CompiledRoute) : Bool :=
  r.segments.all (fun s => !(jsStartsWith s "http.post"))

/-! ### The budget tracker (post-request block of `run`) -/

/-- Floor of the base-2 logarithm of a positive natural (fuel-based so
the kernel can evaluate it). -/
def natLog2F : Nat → Nat → Nat
  | 0, _ => 0
  | fuel + 1, n => if 2 ≤ n then natLog2F fuel (n / 2) + 1 else 0

/-- The unique `e` with `2^e ≤ a/b < 2^(e+1)`, for positive `a`, `b`. -/
def floorLog2Rat (a b : Nat) : Int :=
  if b ≤ a then (natLog2F (a / b) (a / b) : Int)
  else
    let ep := natLog2F (b / a) (b / a)
    if a * 2 ^ ep = b then -(ep : Int) else -(ep : Int) - 1

/-- The positive rational `a/b` rounded to the nearest IEEE-754 binary64
value, ties to even: the result is `m·2^k` with `2^52 ≤ m ≤ 2^53`.
Exact in the normal finite range, which covers everything this runner
computes. -/
def roundPosRat (a b : Nat) : Nat × Int :=
  let e := floorLog2Rat a b
  let s := 52 - e
  let (x, y) := if 0 ≤ s then (a * 2 ^ s.toNat, b) else (a, b * 2 ^ (-s).toNat)
  let q := x / y
  let r := x % y
  let m :=
    if 2 * r < y then q
    else if y < 2 * r then q + 1
    else if q % 2 = 0 then q else q + 1
  (m, e - 52)

/-- `Math.ceil` of `m·2^k` for natural `m`. -/
def ceilPow2 (m : Nat) (k : Int) : Nat :=
  if 0 ≤ k then m * 2 ^ k.toNat
  else (m + 2 ^ (-k).toNat - 1) / 2 ^ (-k).toNat

/-- `Math.ceil((p / 100) * len)` exactly as JavaScript evaluates it in
double arithmetic: `p/100` is rounded to the nearest double, the product
with `len` is rounded again, then the ceiling is exact.  This can exceed
the exact ceiling of `p·len/100` by one when rounding pushes the product
just above an integer (e.g. `p = 28`, `len = 25` gives
`Math.ceil(7.000000000000001) = 8`). -/
def jsCeilPercLen (p len : Nat) : Nat :=
  if p = 0 ∨ len = 0 then 0
  else
    let (m1, k1) := roundPosRat p 100
    let a := m1 * len
    let (m2, k2) :=
      if 0 ≤ k1 then roundPosRat (a * 2 ^ k1.toNat) 1
      else roundPosRat a (2 ^ (-k1).toNat)
    ceilPow2 m2 k2

example : jsCeilPercLen 90 5 = 5 := by decide
example : jsCeilPercLen 28 25 = 8 := by decide
example : jsCeilPercLen 7 100 = 8 := by decide
example : jsCeilPercLen 29 100 = 29 := by decide
example : jsCeilPercLen 50 4 = 2 := by decide
example : jsCeilPercLen 100 7 = 7 := by decide
example : jsCeilPercLen 0 5 = 0 := by decide

/-- One budget check over a latency history: sort ascending, take the
index `Math.ceil((p/100)·len) − 1` as computed in double arithmetic,
clamped to 0 (truncated subtraction is the `Math.max(0, ·)` clamp), and
flag a violation when the value there strictly exceeds the threshold (an
out-of-range index reads `undefined`, which compares false). -/
def percentileCheck (lats : List Nat) (b : Budget) : Bool :=
  let sorted := List.insertionSort (fun a b => a ≤ b) lats
  let idx := jsCeilPercLen b.percentile sorted.length - 1
  match sorted[idx]? with
  | some v => decide (b.threshold < v)
  | none => false

/-- The whole post-request block: push the observed duration onto the
route's latency history, then evaluate every budget against the grown
history (the reported violations, in budget order). -/
def recordAndCheck (lats : List Nat) (d : Nat) (budgets : List Budget) :
    List Nat × List Bool :=
  let l := lats ++ [d]
  (l, budgets.map (percentileCheck l))

example : percentileCheck [10, 20, 30, 40, 50] ⟨90, 45⟩ = true := by decide
example : percentileCheck [10, 20, 30, 40, 50] ⟨90, 55⟩ = false := by decide

/-! ### The property checker -/

/-- The AST produced by `parseNova` as far as the core consumes it:
enums, properties and routes as association lists in declaration order
(models and transitions are never read by the runner). -/
structure Ast where
  enums : List (String × List String)
  properties : List (String × String)
  routes : List (String × String)
deriving DecidableEq, Repr

/-- The scan-prefix resolution inside `checkProperties`: default `'j:'`;
if there is a first route whose text after `::` (trimmed) starts with
`kv.scan`, take the capture of `/kv\.scan\("(.*)"\)/` over that whole
pipeline text.  With no routes at all the source dereferences
`undefined` (a TypeError escaping `checkProperties`). -/
def resolvePfx (routes : List (String × String)) : Except String String :=
  match routes with
  | [] => .error "TypeError"
  | (_, first) :: _ =>
    let parts := (jsSplitOn first "::").map jsTrim
    .ok (match parts[1]? with
         | some p1 =>
           if jsStartsWith p1 "kv.scan" then
             match jsMatchKvScan p1 with
             | some pfx => pfx
             | none => "j:"
           else "j:"
         | none => "j:")

/-- Modelled from the spec: "The scan prefix is resolved by inspecting the
first declared route's first ScanByPrefix segment, or a fixed default if
none exists" — i.e. split the first route's pipeline into stages and take
the prefix of the first `kv.scan` stage wherever it sits.  Used to compare
the claim's reading against `resolvePfx`. -/
def resolvePfxSpec (routes : List (String × String)) : Option String :=
  match routes with
  | [] => none
  | (_, first) :: _ =>
    let stages := parsePipeline (pipelineOf first)
    some (match stages.find? (fun s => jsStartsWith s "kv.scan") with
          | some s => (jsMatchKvScan s).getD "j:"
          | none => "j:")

/-- The switch over the normalised comparison operator: an item passes
when the comparison holds (an operator outside the four cases would fall
through the switch, leaving the item unchallenged). -/
def cmpHolds (op : String) (v : Int) (t : Nat) : Bool :=
  if op = ">" then decide ((t : Int) < v)
  else if op = ">=" then decide ((t : Int) ≤ v)
  else if op = "<" then decide (v < (t : Int))
  else if op = "<=" then decide (v ≤ (t : Int))
  else true

/-- The per-item step of the numeric-comparison loop: an absent field is
skipped, a NaN value is an immediate violation, otherwise the comparison
decides. -/
def cmpItemOk (fd op : String) (t : Nat) (it : Item) : Bool :=
  match itemGet it fd with
  | none => true
  | some v =>
    match toNum v with
    | none => false
    | some n => cmpHolds op n t

/-- The per-item step of the enum-membership loop: an absent field is
skipped, otherwise the stringified value must be among the enum's
values. -/
def monoItemOk (fd : String) (allowed : List String) (it : Item) : Bool :=
  match itemGet it fd with
  | none => true
  | some v => allowed.contains (jsValString v)

/-- The numeric-comparison part of one property: no match means no
constraint, otherwise every scanned item must pass `cmpItemOk`. -/
def cmpPartOf (ast : Ast) (store : Store) (p : String) : Except String Bool :=
  match searchCmp p with
  | none => .ok true
  | some (fd, op, t) =>
    match resolvePfx ast.routes with
    | .error e => .error e
    | .ok pfx => .ok ((kvScan store pfx).all (cmpItemOk fd op t))

/-- The enum-membership part of one property (`mono(U#, E#)`): the enum's
value list, or `[]` when the enum id is undeclared. -/
def monoPartOf (ast : Ast) (store : Store) (p : String) : Except String Bool :=
  match searchMono p with
  | none => .ok true
  | some (fd, eds) =>
    match resolvePfx ast.routes with
    | .error e => .error e
    | .ok pfx =>
      let allowed :=
        ((List.find? (fun kv => kv.1 == "E" ++ eds) ast.enums).map
            (fun kv => kv.2)).getD []
      .ok ((kvScan store pfx).all (monoItemOk fd allowed))

/-- One property: a failing numeric comparison returns `false` at once
(skipping the membership block of the same property), otherwise the
membership block decides. -/
def checkOne (ast : Ast) (store : Store) (p : String) : Except String Bool :=
  match cmpPartOf ast store p with
  | .error e => .error e
  | .ok false => .ok false
  | .ok true => monoPartOf ast store p

/-- The loop of `checkProperties` over the declared properties in order:
the first `false` aborts with `false`. -/
def checkPropsGo (ast : Ast) (store : Store) :
    List (String × String) → Except String Bool
  | [] => .ok true
  | (_, p) :: rest =>
    match checkOne ast store p with
    | .error e => .error e
    | .ok false => .ok false
    | .ok true => checkPropsGo ast store rest

/-- `checkProperties(ast, runtime)`: the aggregate boolean over all
declared properties and all scanned items. -/
def checkProperties (ast : Ast) (store : Store) : Except String Bool :=
  checkPropsGo ast store ast.properties

/-! ### The optimization advisor -/

/-- One suggestion of `suggestOptimizations`. -/
structure Suggestion where
  route : String
  suggestion : String
deriving DecidableEq, Repr

/-- The loop body of `suggestOptimizations` for one compiled route:
nothing without budgets; with budgets, a missing `page(` segment yields
the add-pagination suggestion, a page size above 50 the reduce
suggestion, anything else nothing. -/
def suggestForRoute (r : CompiledRoute) : List Suggestion :=
  if r.budgets.isEmpty then []
  else
    match r.segments.find? (fun s => jsStartsWith s "page(") with
    | none => [⟨r.path, "Add page(50) to limit results and improve latency."⟩]
    | some seg =>
      match findPageNum seg with
      | some n =>
        if 50 < n then
          [⟨r.path, "Reduce page size from " ++ toString n ++
              " to 50 to meet latency budget."⟩]
        else []
      | none => []

/-- `suggestOptimizations(ast, compiled)`: the per-route suggestions in
route order (the `ast` argument is received but never read by the
source). -/
def suggestOptimizations (ast : Ast) : List CompiledRoute → List Suggestion
  | [] => []
  | r :: rest => suggestForRoute r ++ suggestOptimizations ast rest

/-- The whole serving pipeline of `run` for one request: compilation must
succeed before any dispatch can happen; a compile error rejects the whole
program and no request outcome exists. -/
def runProgram (dict : String → Bool) (specs : List String) (method pth : String)
    (q : Query) (st : RtState) : Except String (Outcome × RtState) :=
  match compileRoutes dict specs with
  | .error e => .error e
  | .ok routes => .ok (dispatchS routes method pth q st)

/-! ## Theorems about the claims -/

/-- The exact ceiling of `a/100` as computed by `(a + 99) / 100`. -/
theorem ceil_div100 (a : ℕ) : ⌈(a : ℚ) / 100⌉₊ = (a + 99) / 100 := by
  apply le_antisymm
  · rw [Nat.ceil_le, div_le_iff₀ (by norm_num : (0 : ℚ) < 100)]
    have h := Nat.div_add_mod (a + 99) 100
    have hm : (a + 99) % 100 < 100 := Nat.mod_lt _ (by norm_num)
    have hle : a ≤ ((a + 99) / 100) * 100 := by omega
    exact_mod_cast hle
  · have hc := Nat.le_ceil ((a : ℚ) / 100)
    rw [div_le_iff₀ (by norm_num : (0 : ℚ) < 100)] at hc
    have hn : a ≤ ⌈(a : ℚ) / 100⌉₊ * 100 := by exact_mod_cast hc
    have hlt : a + 99 < (⌈(a : ℚ) / 100⌉₊ + 1) * 100 := by omega
    exact Nat.lt_succ_iff.mp ((Nat.div_lt_iff_lt_mul (by norm_num)).mpr hlt)

/-- C1 counterexample.  The source computes the nearest-rank index with
`Math.ceil((p/100) * len)` in double arithmetic; for percentile 28 over a
25-entry history the product evaluates to 7.000000000000001 and the code
reads index 7, while the claim's exact `ceil(28/100 × 25) − 1` is index
6.  With history `[1,…,25]` and threshold 7 the code therefore flags a
violation (value 8 > 7) although the element at the claimed index is 7,
which does not exceed the threshold: the claimed iff fails. -/
theorem c1_exact_ceiling_counterexample :
    ¬(percentileCheck
        [1, 2, 3, 4, 5, 6, 7, 8, 9, 10, 11, 12, 13, 14, 15, 16, 17, 18,
         19, 20, 21, 22, 23, 24, 25] ⟨28, 7⟩ = true ↔
      ∃ v, (List.insertionSort (fun a b => a ≤ b)
          [1, 2, 3, 4, 5, 6, 7, 8, 9, 10, 11, 12, 13, 14, 15, 16, 17, 18,
           19, 20, 21, 22, 23, 24, 25])[(⌈((28 * 25 : ℕ) : ℚ) / 100⌉₊ - 1)]? =
          some v ∧ 7 < v) := by
  intro hiff
  obtain ⟨v, hv, hlt⟩ := hiff.mp (by decide)
  rw [ceil_div100] at hv
  have h7 : (List.insertionSort (fun a b => a ≤ b)
      [1, 2, 3, 4, 5, 6, 7, 8, 9, 10, 11, 12, 13, 14, 15, 16, 17, 18,
       19, 20, 21, 22, 23, 24, 25])[((28 * 25 + 99) / 100 : ℕ) - 1]? =
      some 7 := by decide
  rw [h7] at hv
  cases hv
  exact absurd hlt (by decide)

/-- C1 (amended).  Budget tracker: the observed latency is appended to
the history; each budget is then evaluated over the full grown history;
the percentile value is the entry of the ascending-sorted history at
index `Math.ceil((p/100)·len) − 1` as evaluated in double arithmetic
(clamped to ≥ 0), and a violation is flagged exactly when that value
strictly exceeds the threshold.  The double index agrees with the exact
nearest-rank `ceil(p·len/100) − 1` on the spec's example (p90 over 5
entries, value 50, violation against 45ms) but exceeds it by one on
pairs such as p28 over 25 entries. -/
theorem c1_budget_tracker_float_nearest_rank :
    (∀ (lats : List ℕ) (d : ℕ) (budgets : List Budget),
       recordAndCheck lats d budgets =
         (lats ++ [d], budgets.map (percentileCheck (lats ++ [d])))) ∧
    (∀ (lats : List ℕ) (b : Budget) (sorted : List ℕ),
       List.Sorted (fun a b => a ≤ b) sorted → lats.Perm sorted →
       (percentileCheck lats b = true ↔
         ∃ v, sorted[(jsCeilPercLen b.percentile sorted.length - 1)]? =
             some v ∧ b.threshold < v)) ∧
    (jsCeilPercLen 90 5 = ⌈((90 * 5 : ℕ) : ℚ) / 100⌉₊ ∧
     percentileCheck [10, 20, 30, 40, 50] ⟨90, 45⟩ = true ∧
     (List.insertionSort (fun a b => a ≤ b) [10, 20, 30, 40, 50])[4]? =
       some 50) ∧
    (jsCeilPercLen 28 25 = 8 ∧ ⌈((28 * 25 : ℕ) : ℚ) / 100⌉₊ = 7) := by
  refine ⟨fun lats d budgets => rfl, fun lats b sorted hs hp => ?_,
    ⟨by rw [ceil_div100]; decide, by decide, by decide⟩,
    by decide, by rw [ceil_div100]⟩
  have hperm : (List.insertionSort (fun a b => a ≤ b) lats).Perm sorted :=
    (List.perm_insertionSort _ lats).trans hp
  have heq : List.insertionSort (fun a b => a ≤ b) lats = sorted :=
    List.eq_of_perm_of_sorted hperm (List.sorted_insertionSort _ lats) hs
  rw [percentileCheck, heq]
  cases sorted[jsCeilPercLen b.percentile sorted.length - 1]? with
  | none => simp
  | some v => simp

/-- Witness for C1 (amended): the spec's own example, with the unsorted
history `[30,10,50,20,40]` and its ascending sort `[10,20,30,40,50]`. -/
theorem c1_budget_tracker_float_nearest_rank_witness :
    List.Sorted (fun a b => a ≤ b) [10, 20, 30, 40, 50] ∧
    List.Perm [30, 10, 50, 20, 40] [10, 20, 30, 40, 50] ∧
    percentileCheck [30, 10, 50, 20, 40] ⟨90, 45⟩ = true :=
  ⟨by decide, by decide,
   (c1_budget_tracker_float_nearest_rank.2.1 [30, 10, 50, 20, 40] ⟨90, 45⟩
       [10, 20, 30, 40, 50] (by decide) (by decide)).mpr
     ⟨50, by decide, by decide⟩⟩

/-- The last occurrence of `c` right after an arbitrary list. -/
theorem lastIdxChar_append_last (c : Char) (xs : List Char) :
    lastIdxChar c (xs ++ [c]) = some xs.length := by
  induction xs with
  | nil => simp [lastIdxChar]
  | cons x xs ih => simp [lastIdxChar, ih]

/-- The last occurrence of the two-character pattern right after an
arbitrary list. -/
theorem lastSub2_append_last (a b : Char) (xs : List Char) :
    lastSub2 a b (xs ++ [a, b]) = some xs.length := by
  induction xs with
  | nil => simp [lastSub2]
  | cons x xs ih => simp [lastSub2, ih]

/-- The `req(...)` capture of a synthesised precondition segment is the
condition itself. -/
theorem matchCallArg_req (cond : String) (hne : cond.data ≠ []) :
    matchCallArg "req" ("req(" ++ cond ++ ")") = some cond := by
  have hdata : ("req(" ++ cond ++ ")").data =
      'r' :: 'e' :: 'q' :: '(' :: (cond.data ++ [')']) := by
    simp [String.data_append]
  unfold matchCallArg
  rw [hdata]
  have hfind : findSub ("req" ++ "(").data
      ('r' :: 'e' :: 'q' :: '(' :: (cond.data ++ [')'])) = some 0 := rfl
  simp only [hfind]
  have h2 : List.drop (0 + ("req" ++ "(").data.length)
      ('r' :: 'e' :: 'q' :: '(' :: (cond.data ++ [')'])) = cond.data ++ [')'] := rfl
  simp only [h2, lastIdxChar_append_last]
  have h3 : 1 ≤ cond.data.length := List.length_pos.mpr hne
  simp only [h3, if_true, List.take_left]

/-- `executePipeline`'s stage dispatch sends a synthesised `req(...)`
segment to the precondition branch. -/
theorem execSeg_req (cond : String) (hne : cond.data ≠ []) (ctx : Ctx)
    (st : RtState) (d : Data) :
    execSeg ("req(" ++ cond ++ ")") ctx st d =
      match evaluatePrecondition cond ctx st.store with
      | .error e => .error e
      | .ok true => .ok (d, st)
      | .ok false => .error ("Precondition failed: " ++ cond) := by
  have h1 : jsStartsWith ("req(" ++ cond ++ ")") "kv.scan" = false := rfl
  have h2 : jsStartsWith ("req(" ++ cond ++ ")") "kv.get" = false := rfl
  have h3 : jsStartsWith ("req(" ++ cond ++ ")") "filter" = false := rfl
  have h4 : jsStartsWith ("req(" ++ cond ++ ")") "page" = false := rfl
  have h5 : jsStartsWith ("req(" ++ cond ++ ")") "req" = true := rfl
  unfold execSeg
  simp only [h1, h2, h3, h4, h5, Bool.false_eq_true, if_false, if_true,
    matchCallArg_req cond hne]

/-- C2 counterexample.  A route whose first (and only) path variable is
named `U2`: the claim reads the key from the route's first path variable
(`j:job1`, where the authoritative item sits with `U4 = 2 ∈ [2,3]`), but
`evaluatePrecondition` reads `ctx.pathVars['U1']`, which is undefined, so
the lookup key is `j:undefined`, the item is not found and the
precondition fails. -/
theorem c2_first_pathvar_counterexample :
    evaluatePrecondition "U4 in [2,3]" ⟨[("U2", "job1")], []⟩
        [("j:job1", [("U4", Val.num 2)])] = .ok false ∧
    evaluatePreconditionSpec "U4 in [2,3]" ⟨[("U2", "job1")], []⟩
        [("j:job1", [("U4", Val.num 2)])] = .ok true := by
  constructor <;> decide

/-- C2 (amended).  For every route whose pipeline carries a `req(cond)`
stage with a condition matching the precondition pattern, the
authoritative item is fetched at the key `'j:' +` the value of the path
variable NAMED `U1` (the text `undefined` when that variable is absent);
if the item is missing at that key, or its field value is not among the
declared values, the whole remaining pipeline is aborted with a
precondition error and no result; otherwise execution continues on the
unchanged current value. -/
theorem c2_precondition_semantics (cond fd : String) (vals : List String)
    (ctx : Ctx) (st : RtState) (segs : List String) (d : Data)
    (hp : precondParse cond = some (fd, vals)) (hne : cond.data ≠ []) :
    execSegs (("req(" ++ cond ++ ")") :: segs) ctx st d =
      match kvGet st.store ("j:" ++ jsStrOpt (lookupVar ctx.pathVars "U1")) with
      | none => (.error ("Precondition failed: " ++ cond), st)
      | some it =>
        if vals.contains (jsValStringOpt (itemGet it fd)) then
          execSegs segs ctx st d
        else (.error ("Precondition failed: " ++ cond), st) := by
  have hev : evaluatePrecondition cond ctx st.store =
      match kvGet st.store ("j:" ++ jsStrOpt (lookupVar ctx.pathVars "U1")) with
      | none => .ok false
      | some it => .ok (vals.contains (jsValStringOpt (itemGet it fd))) := by
    unfold evaluatePrecondition
    rw [hp]
  show (match execSeg ("req(" ++ cond ++ ")") ctx st d with
        | .ok (d', st') => execSegs segs ctx st' d'
        | .error e => (.error e, st)) = _
  rw [execSeg_req cond hne, hev]
  cases kvGet st.store ("j:" ++ jsStrOpt (lookupVar ctx.pathVars "U1")) with
  | none => rfl
  | some it =>
    dsimp only
    cases hc : vals.contains (jsValStringOpt (itemGet it fd)) <;> rfl

/-- Witness for C2 (amended): the spec's example.  An item with `U4 = 2`
passes `req(U4 in [2,3])` and leaves the pipeline value untouched;
without the item at the derived key the pipeline aborts. -/
theorem c2_precondition_semantics_witness :
    precondParse "U4 in [2,3]" = some ("U4", ["2", "3"]) ∧
    execSegs ["req(U4 in [2,3])"] ⟨[("U1", "job1")], []⟩
        ⟨[("j:job1", [("U4", Val.num 2)])], []⟩ .jsUndefined =
      (.ok .jsUndefined, ⟨[("j:job1", [("U4", Val.num 2)])], []⟩) ∧
    execSegs ["req(U4 in [2,3])"] ⟨[("U1", "nope")], []⟩
        ⟨[("j:job1", [("U4", Val.num 2)])], []⟩ .jsUndefined =
      (.error "Precondition failed: U4 in [2,3]",
       ⟨[("j:job1", [("U4", Val.num 2)])], []⟩) := by
  refine ⟨by decide, ?_, ?_⟩
  · rw [show ("req(U4 in [2,3])" : String) = "req(" ++ "U4 in [2,3]" ++ ")" from rfl]
    rw [c2_precondition_semantics "U4 in [2,3]" "U4" ["2", "3"]
        ⟨[("U1", "job1")], []⟩ ⟨[("j:job1", [("U4", Val.num 2)])], []⟩ []
        Data.jsUndefined (by decide) (by decide)]
    decide
  · rw [show ("req(U4 in [2,3])" : String) = "req(" ++ "U4 in [2,3]" ++ ")" from rfl]
    rw [c2_precondition_semantics "U4 in [2,3]" "U4" ["2", "3"]
        ⟨[("U1", "nope")], []⟩ ⟨[("j:job1", [("U4", Val.num 2)])], []⟩ []
        Data.jsUndefined (by decide) (by decide)]
    decide

/-- Lifting a per-item filter equation through `filterE`. -/
theorem filterE_ok (cond : String) (q : Query) (p : Item → Bool)
    (h : ∀ it, evaluateFilter cond it q = .ok (p it)) :
    ∀ items : List Item, filterE cond q items = .ok (items.filter p) := by
  intro items
  induction items with
  | nil => rfl
  | cons it rest ih =>
    show (match evaluateFilter cond it q with
          | Except.error e => Except.error e
          | Except.ok true => (filterE cond q rest).map (fun l => it :: l)
          | Except.ok false => filterE cond q rest) =
        Except.ok (List.filter p (it :: rest))
    rw [h it, ih, List.filter_cons]
    cases hk : p it
    · rw [if_neg (by simp)]
    · rfl

/-- C3.  A Filter segment of the form `field in ?q.name` keeps an item if
and only if the query-parameter set named `name` is empty (pass-through)
or contains the stringified value of the item's field; over a sequence the
filter therefore keeps exactly those items. -/
theorem c3_filter_in_semantics (cond fd rest0 pname : String)
    (restL : List String) (q : Query)
    (h0 : jsIncludes cond " in " = true)
    (h1 : jsSplitOn cond " in " = fd :: rest0 :: restL)
    (h2 : jsRemoveFirst (jsTrim rest0) "?q." = pname) :
    (∀ it : Item,
       evaluateFilter cond it q =
         .ok ((getAll q pname).isEmpty ||
              (getAll q pname).contains (jsValStringOpt (itemGet it (jsTrim fd))))) ∧
    (∀ items : List Item,
       filterE cond q items =
         .ok (items.filter (fun it =>
           (getAll q pname).isEmpty ||
             (getAll q pname).contains (jsValStringOpt (itemGet it (jsTrim fd)))))) := by
  have hone : ∀ it : Item,
      evaluateFilter cond it q =
        .ok ((getAll q pname).isEmpty ||
             (getAll q pname).contains (jsValStringOpt (itemGet it (jsTrim fd)))) := by
    intro it
    unfold evaluateFilter
    rw [h0]
    simp only [if_true, h1, h2]
  exact ⟨hone, filterE_ok cond q _ hone⟩

/-- Witness for C3: the spec's example.  Items `A` (status 1) and `B`
(status 2); `status in ?q.s` with no `s` parameter keeps both, with `s=2`
keeps only `B`. -/
theorem c3_filter_in_semantics_witness :
    jsIncludes "status in ?q.s" " in " = true ∧
    jsSplitOn "status in ?q.s" " in " = ["status", "?q.s"] ∧
    jsRemoveFirst (jsTrim "?q.s") "?q." = "s" ∧
    filterE "status in ?q.s" []
        [[("id", Val.str "A"), ("status", Val.num 1)],
         [("id", Val.str "B"), ("status", Val.num 2)]] =
      .ok [[("id", Val.str "A"), ("status", Val.num 1)],
           [("id", Val.str "B"), ("status", Val.num 2)]] ∧
    filterE "status in ?q.s" [("s", "2")]
        [[("id", Val.str "A"), ("status", Val.num 1)],
         [("id", Val.str "B"), ("status", Val.num 2)]] =
      .ok [[("id", Val.str "B"), ("status", Val.num 2)]] := by
  refine ⟨by decide, by decide, by decide, ?_, ?_⟩
  · rw [(c3_filter_in_semantics "status in ?q.s" "status" "?q.s" "s" [] []
        (by decide) (by decide) (by decide)).2]
    decide
  · rw [(c3_filter_in_semantics "status in ?q.s" "status" "?q.s" "s" []
        [("s", "2")] (by decide) (by decide) (by decide)).2]
    decide

/-- The `kv.scan("...")` capture over a pipeline that is exactly one
well-formed scan stage. -/
theorem jsMatchKvScan_exact (x : String) :
    jsMatchKvScan ("kv.scan(\"" ++ x ++ "\")") = some x := by
  have hdata : ("kv.scan(\"" ++ x ++ "\")").data =
      'k' :: 'v' :: '.' :: 's' :: 'c' :: 'a' :: 'n' :: '(' :: '"' ::
        (x.data ++ ['"', ')']) := by
    simp [String.data_append]
  unfold jsMatchKvScan
  rw [hdata]
  have hfind : findSub "kv.scan(\"".data
      ('k' :: 'v' :: '.' :: 's' :: 'c' :: 'a' :: 'n' :: '(' :: '"' ::
        (x.data ++ ['"', ')'])) = some 0 := rfl
  simp only [hfind]
  have h2 : List.drop (0 + 9)
      ('k' :: 'v' :: '.' :: 's' :: 'c' :: 'a' :: 'n' :: '(' :: '"' ::
        (x.data ++ ['"', ')'])) = x.data ++ ['"', ')'] := rfl
  simp only [h2, lastSub2_append_last, List.take_left]

/-- C4 (amended).  The Property Checker's scan prefix is resolved from
the first declared route only when the text after `::` (the whole
pipeline) starts with `kv.scan`: then the capture of `kv.scan("...")`
over that text is used (exactly the declared prefix when the scan stage
is the entire pipeline); in every other case, in particular when the
first `kv.scan` stage sits later in the pipeline, the fixed default `j:`
is used. -/
theorem c4_scan_prefix_resolution (k spec : String)
    (rest : List (String × String)) (pp p1 : String)
    (h : (jsSplitOn spec "::").map jsTrim = [pp, p1]) :
    (jsStartsWith p1 "kv.scan" = false →
       resolvePfx ((k, spec) :: rest) = .ok "j:") ∧
    (∀ x : String, p1 = "kv.scan(\"" ++ x ++ "\")" →
       resolvePfx ((k, spec) :: rest) = .ok x) := by
  constructor
  · intro hks
    unfold resolvePfx
    simp only [h, List.getElem?_cons_succ, List.getElem?_cons_zero, hks,
      Bool.false_eq_true, if_false]
  · intro x hx
    unfold resolvePfx
    have hks : jsStartsWith ("kv.scan(\"" ++ x ++ "\")") "kv.scan" = true := rfl
    simp only [h, hx, List.getElem?_cons_succ, List.getElem?_cons_zero, hks,
      if_true, jsMatchKvScan_exact]

/-- C4 counterexample.  The first declared route's first ScanByPrefix
segment is `kv.scan("a:")`, but because it is not the first stage of the
pipeline the code keeps the default `j:`; as a consequence the checker
scans the `j:` keyspace (flagging `U3 = -5`) although every item under
the claimed prefix `a:` satisfies the property. -/
theorem c4_scan_prefix_counterexample :
    resolvePfx [("R1", "GET /j -> [M1] :: page(5) | kv.scan(\"a:\")")] =
      .ok "j:" ∧
    resolvePfxSpec [("R1", "GET /j -> [M1] :: page(5) | kv.scan(\"a:\")")] =
      some "a:" ∧
    checkProperties
        ⟨[], [("P1", "U3(x) >= 0")],
         [("R1", "GET /j -> [M1] :: page(5) | kv.scan(\"a:\")")]⟩
        [("j:x", [("U3", Val.num (-5))]), ("a:y", [("U3", Val.num 1)])] =
      .ok false ∧
    (kvScan [("j:x", [("U3", Val.num (-5))]), ("a:y", [("U3", Val.num 1)])]
        "a:").all (cmpItemOk "U3" ">=" 0) = true := by
  refine ⟨by decide, by decide, by decide, by decide⟩

/-- Witness for C4 (amended): a pipeline that starts with the scan stage
resolves to its declared prefix; one whose scan stage comes second keeps
the default. -/
theorem c4_scan_prefix_resolution_witness :
    resolvePfx [("R1", "GET /j -> [M1] :: kv.scan(\"a:\")")] = .ok "a:" ∧
    resolvePfx [("R1", "GET /j -> [M1] :: page(5) | kv.scan(\"a:\")")] =
      .ok "j:" :=
  ⟨(c4_scan_prefix_resolution "R1" "GET /j -> [M1] :: kv.scan(\"a:\")" []
        "GET /j -> [M1]" "kv.scan(\"a:\")" (by decide)).2 "a:" (by decide),
   (c4_scan_prefix_resolution "R1"
        "GET /j -> [M1] :: page(5) | kv.scan(\"a:\")" []
        "GET /j -> [M1]" "page(5) | kv.scan(\"a:\")" (by decide)).1 (by decide)⟩

/-- A bad pipeline stage (non-budget, operation-shaped, not a builtin,
not in the dictionary) makes the segment-compilation loop fail. -/
theorem compileSegsGo_err (dict : String → Bool) (raw : List String)
    (seg cap : String) (hm : seg ∈ raw)
    (hb : jsStartsWith seg "!" = false)
    (hc : capMatchOf seg = some cap)
    (hn : cap ∉ ["filter", "page", "req"])
    (hd : dict cap = false) :
    ∃ e, compileSegsGo dict raw = .error e := by
  induction raw with
  | nil => cases hm
  | cons s rest ih =>
    rcases List.mem_cons.mp hm with heq | hmem
    · subst heq
      unfold compileSegsGo
      rw [hb]
      simp only [Bool.false_eq_true, if_false, hc]
      rw [if_neg hn]
      simp only [hd, Bool.false_eq_true, if_false]
      exact ⟨_, rfl⟩
    · obtain ⟨e, he⟩ := ih hmem
      unfold compileSegsGo
      rw [he]
      repeat first
        | exact ⟨_, rfl⟩
        | split

/-- A failing route spec makes the whole program compilation fail. -/
theorem compileRoutes_err (dict : String → Bool) (specs : List String)
    (spec : String) (hm : spec ∈ specs)
    (he : ∃ e, compileRoute dict spec = .error e) :
    ∃ e, compileRoutes dict specs = .error e := by
  induction specs with
  | nil => cases hm
  | cons s rest ih =>
    rcases List.mem_cons.mp hm with heq | hmem
    · subst heq
      obtain ⟨e, he⟩ := he
      unfold compileRoutes
      rw [he]
      exact ⟨_, rfl⟩
    · obtain ⟨e, he⟩ := ih hmem
      unfold compileRoutes
      rw [he]
      repeat first
        | exact ⟨_, rfl⟩
        | split

/-- C5.  Compilation is fatal and precedes serving: a route whose path
part does not match the grammar, or a pipeline stage invoking an
operation name that is neither in the capability dictionary nor one of
the builtins `filter`/`page`/`req`, makes `compileRoutes` fail on the
whole program, and then `runProgram` yields an error for every request —
no request is ever dispatched. -/
theorem c5_compile_errors_fatal :
    (∀ (dict : String → Bool) (specs : List String) (spec : String),
       spec ∈ specs → parsePathPart (pathPartOf spec) = none →
       ∃ e, compileRoutes dict specs = .error e) ∧
    (∀ (dict : String → Bool) (specs : List String) (spec seg cap : String),
       spec ∈ specs → seg ∈ parsePipeline (pipelineOf spec) →
       jsStartsWith seg "!" = false → capMatchOf seg = some cap →
       cap ∉ ["filter", "page", "req"] → dict cap = false →
       ∃ e, compileRoutes dict specs = .error e) ∧
    (∀ (dict : String → Bool) (specs : List String) (method pth : String)
       (q : Query) (st : RtState) (e : String),
       compileRoutes dict specs = .error e →
       runProgram dict specs method pth q st = .error e) := by
  refine ⟨?_, ?_, ?_⟩
  · intro dict specs spec hm hbad
    refine compileRoutes_err dict specs spec hm ?_
    unfold compileRoute
    rw [hbad]
    exact ⟨_, rfl⟩
  · intro dict specs spec seg cap hm hseg hb hc hn hd
    refine compileRoutes_err dict specs spec hm ?_
    obtain ⟨e, he⟩ := compileSegsGo_err dict
      (parsePipeline (pipelineOf spec)) seg cap hseg hb hc hn hd
    unfold compileRoute
    rw [he]
    repeat first
      | exact ⟨_, rfl⟩
      | split
  · intro dict specs method pth q st e he
    unfold runProgram
    rw [he]

/-- Witness for C5: a malformed path part (`oops`) and an unknown
capability (`zap`) each reject the whole program. -/
theorem c5_compile_errors_fatal_witness :
    parsePathPart (pathPartOf "oops") = none ∧
    (∃ e, compileRoutes (fun _ => true) ["oops"] = .error e) ∧
    "zap(1)" ∈ parsePipeline (pipelineOf "GET /j -> [M1] :: zap(1)") ∧
    capMatchOf "zap(1)" = some "zap" ∧
    (∃ e, compileRoutes (fun c => c == "kv.scan")
        ["GET /j -> [M1] :: zap(1)"] = .error e) :=
  ⟨by decide,
   c5_compile_errors_fatal.1 (fun _ => true) ["oops"] "oops"
     (by decide) (by decide),
   by decide, by decide,
   c5_compile_errors_fatal.2.1 (fun c => c == "kv.scan")
     ["GET /j -> [M1] :: zap(1)"] "GET /j -> [M1] :: zap(1)" "zap(1)" "zap"
     (by decide) (by decide) (by decide) (by decide) (by decide) (by decide)⟩

/-- A passing aggregate check means every declared property passed. -/
theorem checkPropsGo_all (ast : Ast) (store : Store)
    (props : List (String × String))
    (h : checkPropsGo ast store props = .ok true) :
    ∀ pr ∈ props, checkOne ast store pr.2 = .ok true := by
  induction props with
  | nil => intro pr hpr; cases hpr
  | cons hd rest ih =>
    intro pr hpr
    obtain ⟨kk, p⟩ := hd
    unfold checkPropsGo at h
    rcases List.mem_cons.mp hpr with heq | hmem
    · subst heq
      cases hco : checkOne ast store p with
      | error e => rw [hco] at h; cases h
      | ok b =>
        cases b with
        | false => rw [hco] at h; cases h
        | true => rfl
    · cases hco : checkOne ast store p with
      | error e => rw [hco] at h; cases h
      | ok b =>
        cases b with
        | false => rw [hco] at h; cases h
        | true =>
          rw [hco] at h
          exact ih h pr hmem

/-- C6.  Numeric properties `Field(x) <cmp> N`: a passing aggregate check
means every scanned item's present field is numeric and satisfies the
comparison (contrapositive: any present non-numeric or failing value
forces `false`); a property matching neither supported shape is vacuously
satisfied; and the spec's example — `U3(x) >= 0` over non-negative items
is true, one negative item flips the aggregate boolean to false. -/
theorem c6_numeric_property_checks :
    (∀ (ast : Ast) (store : Store) (p fd op : String) (t : Nat) (pfx : String),
       p ∈ ast.properties.map Prod.snd →
       searchCmp p = some (fd, op, t) →
       resolvePfx ast.routes = .ok pfx →
       checkProperties ast store = .ok true →
       ∀ it ∈ kvScan store pfx, ∀ v, itemGet it fd = some v →
         ∃ n, toNum v = some n ∧ cmpHolds op n t = true) ∧
    (∀ (ast : Ast) (store : Store) (p : String),
       searchCmp p = none → searchMono p = none →
       checkOne ast store p = .ok true) ∧
    (checkProperties
        ⟨[], [("P1", "U3(x) >= 0")],
         [("R1", "GET /j -> [M1] :: kv.scan(\"j:\")")]⟩
        [("j:a", [("U3", Val.num 5)]), ("j:b", [("U3", Val.num 0)])] =
      .ok true ∧
     checkProperties
        ⟨[], [("P1", "U3(x) >= 0")],
         [("R1", "GET /j -> [M1] :: kv.scan(\"j:\")")]⟩
        [("j:a", [("U3", Val.num 5)]), ("j:b", [("U3", Val.num 0)]),
         ("j:c", [("U3", Val.num (-1))])] =
      .ok false) := by
  refine ⟨?_, ?_, by decide, by decide⟩
  · intro ast store p fd op t pfx hp hc hr hall it hit v hv
    obtain ⟨pr, hpr, hsnd⟩ := List.mem_map.mp hp
    have h1 := checkPropsGo_all ast store ast.properties hall pr hpr
    rw [hsnd] at h1
    unfold checkOne at h1
    cases hcp : cmpPartOf ast store p with
    | error e => rw [hcp] at h1; cases h1
    | ok b =>
      cases b with
      | false => rw [hcp] at h1; simp at h1
      | true =>
        unfold cmpPartOf at hcp
        rw [hc, hr] at hcp
        have hall2 : (kvScan store pfx).all (cmpItemOk fd op t) = true := by
          simpa using hcp
        have hi := List.all_eq_true.mp hall2 it hit
        unfold cmpItemOk at hi
        rw [hv] at hi
        have h3 : (match toNum v with
                   | none => false
                   | some n => cmpHolds op n t) = true := hi
        cases htn : toNum v with
        | none =>
          rw [htn] at h3
          simp at h3
        | some n =>
          rw [htn] at h3
          exact ⟨n, rfl, h3⟩
  · intro ast store p hcn hmn
    unfold checkOne cmpPartOf monoPartOf
    rw [hcn, hmn]

/-- Witness for C6: instantiating the aggregate-to-item direction on the
concrete passing store yields the per-item fact for `j:a`'s `U3 = 5`. -/
theorem c6_numeric_property_checks_witness :
    ∃ n, toNum (Val.num 5) = some n ∧ cmpHolds ">=" n 0 = true :=
  c6_numeric_property_checks.1
    ⟨[], [("P1", "U3(x) >= 0")], [("R1", "GET /j -> [M1] :: kv.scan(\"j:\")")]⟩
    [("j:a", [("U3", Val.num 5)]), ("j:b", [("U3", Val.num 0)])]
    "U3(x) >= 0" "U3" ">=" 0 "j:" (by decide) (by decide) (by decide)
    (by decide) [("U3", Val.num 5)] (by decide) (Val.num 5) (by decide)

/-- Appending one entry to the store extends a scan by that entry's item
when its key matches the scanned text. -/
theorem kvScan_append (store : Store) (k : String) (it : Item) (pfx : String) :
    kvScan (store ++ [(k, it)]) pfx =
      kvScan store pfx ++ (if jsStartsWith k pfx then [it] else []) := by
  unfold kvScan
  rw [List.filter_append, List.map_append]
  congr 1
  cases h : jsStartsWith k pfx <;> simp [List.filter_cons, h]

/-- C10.  An item on which the referenced field of every declared
property is absent is skipped by both property shapes: appending it to
the store (under any key) leaves the aggregate result of
`checkProperties` unchanged, so such an item can never cause the check to
fail. -/
theorem c10_absent_field_skipped (ast : Ast) (store : Store) (k : String)
    (it : Item)
    (hf : ∀ pr ∈ ast.properties,
       (∀ fd op t, searchCmp pr.2 = some (fd, op, t) → itemGet it fd = none) ∧
       (∀ fd eds, searchMono pr.2 = some (fd, eds) → itemGet it fd = none)) :
    checkProperties ast (store ++ [(k, it)]) = checkProperties ast store := by
  unfold checkProperties
  have hone : ∀ pr ∈ ast.properties,
      checkOne ast (store ++ [(k, it)]) pr.2 = checkOne ast store pr.2 := by
    intro pr hpr
    have hcmpitem : ∀ fd op t, searchCmp pr.2 = some (fd, op, t) →
        cmpItemOk fd op t it = true := by
      intro fd op t hs
      unfold cmpItemOk
      rw [(hf pr hpr).1 fd op t hs]
    have hmonoitem : ∀ fd eds allowed, searchMono pr.2 = some (fd, eds) →
        monoItemOk fd allowed it = true := by
      intro fd eds allowed hs
      unfold monoItemOk
      rw [(hf pr hpr).2 fd eds hs]
    have hcmp : cmpPartOf ast (store ++ [(k, it)]) pr.2 =
        cmpPartOf ast store pr.2 := by
      unfold cmpPartOf
      cases hs : searchCmp pr.2 with
      | none => rfl
      | some trip =>
        obtain ⟨fd, op, t⟩ := trip
        cases hr : resolvePfx ast.routes with
        | error e => rfl
        | ok pfx =>
          dsimp only
          rw [kvScan_append, List.all_append]
          cases hk : jsStartsWith k pfx with
          | true =>
            simp only [if_true, List.all_cons, List.all_nil,
              hcmpitem fd op t hs, Bool.and_true, Bool.true_and]
          | false =>
            simp only [Bool.false_eq_true, if_false, List.all_nil, Bool.and_true]
    have hmono : monoPartOf ast (store ++ [(k, it)]) pr.2 =
        monoPartOf ast store pr.2 := by
      unfold monoPartOf
      cases hs : searchMono pr.2 with
      | none => rfl
      | some pairr =>
        obtain ⟨fd, eds⟩ := pairr
        cases hr : resolvePfx ast.routes with
        | error e => rfl
        | ok pfx =>
          dsimp only
          rw [kvScan_append, List.all_append]
          cases hk : jsStartsWith k pfx with
          | true =>
            simp only [if_true, List.all_cons, List.all_nil,
              hmonoitem fd eds _ hs, Bool.and_true, Bool.true_and]
          | false =>
            simp only [Bool.false_eq_true, if_false, List.all_nil, Bool.and_true]
    unfold checkOne
    rw [hcmp, hmono]
  suffices hgen : ∀ props : List (String × String),
      (∀ pr ∈ props,
        checkOne ast (store ++ [(k, it)]) pr.2 = checkOne ast store pr.2) →
      checkPropsGo ast (store ++ [(k, it)]) props =
        checkPropsGo ast store props by
    exact hgen ast.properties hone
  intro props hprops
  induction props with
  | nil => rfl
  | cons pr rest ih =>
    obtain ⟨kk, p⟩ := pr
    unfold checkPropsGo
    rw [hprops (kk, p) (List.mem_cons_self _ _)]
    cases checkOne ast store p with
    | error e => rfl
    | ok b =>
      cases b with
      | false => rfl
      | true => exact ih (fun pr hpr => hprops pr (List.mem_cons_of_mem _ hpr))

/-- Witness for C10: appending an entry with an empty item (every field
absent) leaves the aggregate check of the concrete program unchanged. -/
theorem c10_absent_field_skipped_witness :
    checkProperties
        ⟨[("E1", ["0", "1"])], [("P1", "U3(x) >= 0"), ("P2", "mono(U4, E1)")],
         [("R1", "GET /j -> [M1] :: kv.scan(\"j:\")")]⟩
        ([("j:a", [("U3", Val.num 5), ("U4", Val.num 1)])] ++ [("j:z", [])]) =
      checkProperties
        ⟨[("E1", ["0", "1"])], [("P1", "U3(x) >= 0"), ("P2", "mono(U4, E1)")],
         [("R1", "GET /j -> [M1] :: kv.scan(\"j:\")")]⟩
        [("j:a", [("U3", Val.num 5), ("U4", Val.num 1)])] :=
  c10_absent_field_skipped
    ⟨[("E1", ["0", "1"])], [("P1", "U3(x) >= 0"), ("P2", "mono(U4, E1)")],
     [("R1", "GET /j -> [M1] :: kv.scan(\"j:\")")]⟩
    [("j:a", [("U3", Val.num 5), ("U4", Val.num 1)])] "j:z" []
    (fun _ _ => ⟨fun _ _ _ _ => rfl, fun _ _ _ => rfl⟩)

/-- C7.  The Optimization Advisor, per compiled route: no suggestions
without budgets; with budgets, exactly one "add page(50)" suggestion when
no `page(` segment exists, exactly one "reduce to 50" suggestion when the
page limit exceeds 50, and none otherwise; route analyses concatenate in
order (the function is pure — it returns suggestions and touches neither
the compiled routes nor the AST). -/
theorem c7_advisor_suggestions (ast : Ast) (r : CompiledRoute) :
    (r.budgets = [] → suggestForRoute r = []) ∧
    (r.budgets ≠ [] →
       r.segments.find? (fun s => jsStartsWith s "page(") = none →
       suggestForRoute r =
         [⟨r.path, "Add page(50) to limit results and improve latency."⟩]) ∧
    (∀ seg n, r.budgets ≠ [] →
       r.segments.find? (fun s => jsStartsWith s "page(") = some seg →
       findPageNum seg = some n →
       (50 < n → suggestForRoute r =
          [⟨r.path, "Reduce page size from " ++ toString n ++
              " to 50 to meet latency budget."⟩]) ∧
       (n ≤ 50 → suggestForRoute r = [])) ∧
    (∀ rs, suggestOptimizations ast (r :: rs) =
       suggestForRoute r ++ suggestOptimizations ast rs) := by
  refine ⟨?_, ?_, ?_, fun rs => rfl⟩
  · intro hb
    unfold suggestForRoute
    rw [hb]
    rfl
  · intro hb hfind
    unfold suggestForRoute
    cases hbs : r.budgets with
    | nil => exact absurd hbs hb
    | cons b bs => rw [hfind]; rfl
  · intro seg n hb hf hpn
    constructor
    · intro h50
      unfold suggestForRoute
      cases hbs : r.budgets with
      | nil => exact absurd hbs hb
      | cons b bs =>
        rw [hf]
        dsimp only
        rw [hpn]
        dsimp only
        rw [if_pos h50]
        rfl
    · intro h50
      unfold suggestForRoute
      cases hbs : r.budgets with
      | nil => exact absurd hbs hb
      | cons b bs =>
        rw [hf]
        dsimp only
        rw [hpn]
        dsimp only
        rw [if_neg (not_lt.mpr h50)]
        rfl

/-- Witness for C7: the spec's three examples (budgeted route with no
page segment, with `page(100)`, with `page(10)`) and a budget-less
route. -/
theorem c7_advisor_suggestions_witness :
    suggestForRoute ⟨"GET", "/j", [], ["kv.scan(\"j:\")"], [⟨99, 500⟩]⟩ =
      [⟨"/j", "Add page(50) to limit results and improve latency."⟩] ∧
    suggestForRoute
        ⟨"GET", "/j", [], ["kv.scan(\"j:\")", "page(100)"], [⟨99, 500⟩]⟩ =
      [⟨"/j", "Reduce page size from 100 to 50 to meet latency budget."⟩] ∧
    suggestForRoute
        ⟨"GET", "/j", [], ["kv.scan(\"j:\")", "page(10)"], [⟨99, 500⟩]⟩ = [] ∧
    suggestForRoute ⟨"GET", "/j", [], ["kv.scan(\"j:\")"], []⟩ = [] := by
  refine ⟨?_, ?_, ?_, ?_⟩
  · exact (c7_advisor_suggestions ⟨[], [], []⟩ _).2.1 (by decide) (by decide)
  · have h := ((c7_advisor_suggestions ⟨[], [], []⟩
        ⟨"GET", "/j", [], ["kv.scan(\"j:\")", "page(100)"], [⟨99, 500⟩]⟩).2.2.1
        "page(100)" 100 (by decide) (by decide) (by decide)).1 (by decide)
    simpa using h
  · exact ((c7_advisor_suggestions ⟨[], [], []⟩
        ⟨"GET", "/j", [], ["kv.scan(\"j:\")", "page(10)"], [⟨99, 500⟩]⟩).2.2.1
        "page(10)" 10 (by decide) (by decide) (by decide)).2 (by decide)
  · exact (c7_advisor_suggestions ⟨[], [], []⟩ _).1 rfl

/-- The dispatcher loop settles on the first route with matching method
and matching path regex. -/
theorem dispatchS_eq_findRoute (routes : List CompiledRoute) (m p : String)
    (q : Query) (st : RtState) :
    dispatchS routes m p q st =
      match findRoute routes m p with
      | none => (.notFound, st)
      | some r =>
        match matchToks r.tokens p.data with
        | some vars => respond (execSegs r.segments ⟨vars, q⟩ st .jsUndefined)
        | none => (.notFound, st) := by
  induction routes with
  | nil => rfl
  | cons r rest ih =>
    unfold dispatchS findRoute
    cases hm : r.method == m with
    | true =>
      simp only [if_true]
      cases hmt : matchToks r.tokens p.data with
      | some vars =>
        have hfr : List.find?
            (fun r => r.method == m && (matchToks r.tokens p.data).isSome)
            (r :: rest) = some r := by
          simp [List.find?, hm, hmt]
        rw [hfr]
        dsimp only
        rw [hmt]
      | none =>
        have hfr : List.find?
            (fun r => r.method == m && (matchToks r.tokens p.data).isSome)
            (r :: rest) = List.find?
            (fun r => r.method == m && (matchToks r.tokens p.data).isSome)
            rest := by
          simp [List.find?, hm, hmt]
        rw [hfr]
        exact ih
    | false =>
      simp only [Bool.false_eq_true, if_false]
      have hfr : List.find?
          (fun r => r.method == m && (matchToks r.tokens p.data).isSome)
          (r :: rest) = List.find?
          (fun r => r.method == m && (matchToks r.tokens p.data).isSome)
          rest := by
        simp [List.find?, hm]
      rw [hfr]
      exact ih

/-- C8.  The Dispatcher tries compiled routes in declaration order,
considers only routes whose method equals the request method, runs the
pipeline of the first route whose path template matches and returns its
result as the response; when no route matches the outcome is
not-found. -/
theorem c8_dispatch_first_match :
    (∀ (routes : List CompiledRoute) (m p : String) (q : Query) (st : RtState),
       (∀ r ∈ routes, r.method = m → matchToks r.tokens p.data = none) →
       dispatchS routes m p q st = (.notFound, st)) ∧
    (∀ (pre post : List CompiledRoute) (r : CompiledRoute) (m p : String)
       (q : Query) (st : RtState) (vars : List (String × String)),
       (∀ r' ∈ pre, r'.method = m → matchToks r'.tokens p.data = none) →
       r.method = m → matchToks r.tokens p.data = some vars →
       dispatchS (pre ++ r :: post) m p q st =
         respond (execSegs r.segments ⟨vars, q⟩ st .jsUndefined)) := by
  constructor
  · intro routes m p q st h
    induction routes with
    | nil => rfl
    | cons r rest ih =>
      unfold dispatchS
      cases hm : r.method == m with
      | true =>
        simp only [if_true]
        rw [h r (List.mem_cons_self _ _) (by simpa using hm)]
        exact ih (fun r' hr' => h r' (List.mem_cons_of_mem _ hr'))
      | false =>
        simp only [Bool.false_eq_true, if_false]
        exact ih (fun r' hr' => h r' (List.mem_cons_of_mem _ hr'))
  · intro pre post r m p q st vars hpre hm hmt
    induction pre with
    | nil =>
      rw [List.nil_append]
      unfold dispatchS
      rw [show (r.method == m) = true by simp [hm]]
      simp only [if_true]
      rw [hmt]
    | cons r0 pre' ih =>
      rw [List.cons_append]
      unfold dispatchS
      cases hm0 : r0.method == m with
      | true =>
        simp only [if_true]
        rw [hpre r0 (List.mem_cons_self _ _) (by simpa using hm0)]
        exact ih (fun r' hr' => hpre r' (List.mem_cons_of_mem _ hr'))
      | false =>
        simp only [Bool.false_eq_true, if_false]
        exact ih (fun r' hr' => hpre r' (List.mem_cons_of_mem _ hr'))

/-- Witness for C8: a `POST /j` route is skipped for a `GET /j` request,
the second route matches and its scan result is the success payload; an
unmatched path falls through to not-found. -/
theorem c8_dispatch_first_match_witness :
    dispatchS
        [⟨"POST", "/j", [.lit "/j".data], [], []⟩,
         ⟨"GET", "/j", [.lit "/j".data], ["kv.scan(\"j:\")"], []⟩]
        "GET" "/j" [] ⟨[("j:a", [("U2", Val.str "hello")])], []⟩ =
      (.success (.many [[("U2", Val.str "hello")]]),
       ⟨[("j:a", [("U2", Val.str "hello")])], []⟩) ∧
    dispatchS
        [⟨"POST", "/j", [.lit "/j".data], [], []⟩,
         ⟨"GET", "/j", [.lit "/j".data], ["kv.scan(\"j:\")"], []⟩]
        "GET" "/nope" [] ⟨[("j:a", [("U2", Val.str "hello")])], []⟩ =
      (.notFound, ⟨[("j:a", [("U2", Val.str "hello")])], []⟩) := by
  constructor
  · rw [show ([⟨"POST", "/j", [.lit "/j".data], [], []⟩,
        ⟨"GET", "/j", [.lit "/j".data], ["kv.scan(\"j:\")"], []⟩] :
          List CompiledRoute) =
        [⟨"POST", "/j", [.lit "/j".data], [], []⟩] ++
          (⟨"GET", "/j", [.lit "/j".data], ["kv.scan(\"j:\")"], []⟩ :
            CompiledRoute) :: [] from rfl]
    rw [c8_dispatch_first_match.2
        [⟨"POST", "/j", [.lit "/j".data], [], []⟩] []
        ⟨"GET", "/j", [.lit "/j".data], ["kv.scan(\"j:\")"], []⟩
        "GET" "/j" [] ⟨[("j:a", [("U2", Val.str "hello")])], []⟩ []
        (by decide) (by decide) (by decide)]
    decide
  · exact c8_dispatch_first_match.1
      [⟨"POST", "/j", [.lit "/j".data], [], []⟩,
       ⟨"GET", "/j", [.lit "/j".data], ["kv.scan(\"j:\")"], []⟩]
      "GET" "/nope" [] ⟨[("j:a", [("U2", Val.str "hello")])], []⟩ (by decide)

/-- A pipeline stage other than `http.post` leaves the runtime state
unchanged whenever it succeeds. -/
theorem execSeg_preserves_state (seg : String) (ctx : Ctx) (st : RtState)
    (d : Data) (h : jsStartsWith seg "http.post" = false) :
    ∀ d' st', execSeg seg ctx st d = .ok (d', st') → st' = st := by
  have hmap : ∀ (X : Except String (List Item)) (d' : Data) (st' : RtState),
      Except.map (fun l => (Data.many l, st)) X = .ok (d', st') → st' = st := by
    intro X d' st' hX
    cases X with
    | error e => cases hX
    | ok l =>
      cases hX
      rfl
  intro d' st' he
  unfold execSeg at he
  rw [h] at he
  simp only [Bool.false_eq_true, if_false] at he
  repeat' split at he
  all_goals try (cases he <;> rfl)
  all_goals exact hmap _ _ _ he

/-- A pipeline that never invokes `http.post` leaves the runtime state
unchanged, whether it succeeds or aborts. -/
theorem execSegs_preserves_state (segs : List String) (ctx : Ctx)
    (st : RtState) (d : Data)
    (h : segs.all (fun s => !(jsStartsWith s "http.post")) = true) :
    (execSegs segs ctx st d).2 = st := by
  induction segs generalizing st d with
  | nil => rfl
  | cons seg rest ih =>
    rw [List.all_cons] at h
    obtain ⟨h1, h2⟩ := Bool.and_eq_true_iff.mp h
    have hhd : jsStartsWith seg "http.post" = false := by
      simpa using h1
    show (match execSeg seg ctx st d with
          | Except.ok (d', st') => execSegs rest ctx st' d'
          | Except.error e => (Except.error e, st)).2 = st
    cases hes : execSeg seg ctx st d with
    | error e => rfl
    | ok pr =>
      obtain ⟨d', st'⟩ := pr
      have hst : st' = st := execSeg_preserves_state seg ctx st d hhd d' st' hes
      subst hst
      exact ih st' d' h2

/-- The state component of a wrapped response. -/
theorem respond_snd (x : Except String Data × RtState) :
    (respond x).2 = x.2 := by
  obtain ⟨a, b⟩ := x
  cases a <;> rfl

/-- C9.  A read-only route (no outbound `http.post` stage; no pipeline
stage of this runner writes the store) leaves the runtime state
untouched, so dispatching the same request again — with no intervening
writes — produces the identical outcome. -/
theorem c9_readonly_idempotent (routes : List CompiledRoute) (m p : String)
    (q : Query) (st : RtState) (out : Outcome) (st' : RtState)
    (hro : ∀ r, findRoute routes m p = some r → readOnlyRoute r = true)
    (hd : dispatchS routes m p q st = (out, st')) :
    st' = st ∧ dispatchS routes m p q st' = (out, st') := by
  have hst : st' = st := by
    rw [dispatchS_eq_findRoute] at hd
    cases hfr : findRoute routes m p with
    | none =>
      rw [hfr] at hd
      cases hd
      rfl
    | some r =>
      rw [hfr] at hd
      dsimp only at hd
      revert hd
      cases hmt : matchToks r.tokens p.data with
      | none =>
        intro hd
        cases hd
        rfl
      | some vars =>
        intro hd
        dsimp only at hd
        have hpre : (execSegs r.segments ⟨vars, q⟩ st .jsUndefined).2 = st := by
          refine execSegs_preserves_state r.segments ⟨vars, q⟩ st .jsUndefined ?_
          have := hro r hfr
          unfold readOnlyRoute at this
          exact this
        have h2 := congrArg Prod.snd hd
        rw [respond_snd, hpre] at h2
        exact h2.symm
  subst hst
  exact ⟨rfl, hd⟩

/-- Witness for C9: dispatching the same request to a read-only scan route
twice from the same state yields the identical success payload and leaves
the state unchanged. -/
theorem c9_readonly_idempotent_witness :
    readOnlyRoute ⟨"GET", "/j", [.lit "/j".data], ["kv.scan(\"j:\")"], []⟩ =
      true ∧
    (⟨[("j:a", [("U2", Val.str "hello")])], []⟩ : RtState) =
      ⟨[("j:a", [("U2", Val.str "hello")])], []⟩ ∧
    dispatchS [⟨"GET", "/j", [.lit "/j".data], ["kv.scan(\"j:\")"], []⟩]
        "GET" "/j" [] ⟨[("j:a", [("U2", Val.str "hello")])], []⟩ =
      (.success (.many [[("U2", Val.str "hello")]]),
       ⟨[("j:a", [("U2", Val.str "hello")])], []⟩) :=
  ⟨by decide,
   c9_readonly_idempotent
     [⟨"GET", "/j", [.lit "/j".data], ["kv.scan(\"j:\")"], []⟩]
     "GET" "/j" [] ⟨[("j:a", [("U2", Val.str "hello")])], []⟩
     (.success (.many [[("U2", Val.str "hello")]]))
     ⟨[("j:a", [("U2", Val.str "hello")])], []⟩
     (by decide) (by decide)⟩
